import Mathlib

set_option linter.unusedVariables false

/-!
Verification development for the whisper.cpp cgo bridge of `ivrit_ai_gui`
(`whisper_cgo.go` together with the `Segment` type of `transcription.go`).
The development embeds the model cache, the transcription cache, the
callback registry, the `TranscribeWithTranslation` façade, the progress
polling goroutine, the model-handle locking discipline and the WAV reader,
and proves the documented properties about them.
-/

deriving instance DecidableEq for Except

namespace Ivrit

/-- One transcribed span, mirroring `type Segment struct` of
`transcription.go`.  `Start`/`End` are the engine's centisecond timestamps
divided by 100 (the float64 division of the source, represented exactly as
rationals); `Original` and `Translation` stay empty on the cgo path. -/
structure Segment where
  Start : Rat
  End : Rat
  Text : String
  Original : String
  Translation : String
  Speaker : Int
  deriving DecidableEq, Repr

/-- What the native engine reports for one produced segment index:
`whisper_full_get_segment_t0`, `..._t1`, `..._text` and the tinydiarize
flag `whisper_full_get_segment_speaker_turn_next`. -/
structure RawSeg where
  t0 : Int
  t1 : Int
  text : String
  turnNext : Bool
  deriving DecidableEq, Repr

/-- Outcome of the blocking `whisper_full` call: its integer status and,
on success, the segment table readable through the `whisper_full_get_*`
accessors. -/
structure NativeOutcome where
  status : Int
  segs : List RawSeg
  deriving DecidableEq, Repr

/-- The segment built at loop index `i` of the extraction loop of
`TranscribeWithTranslation`: centiseconds are divided by 100, text is
kept, and the current speaker id is attached. -/
def mkSegment (spk : Int) (r : RawSeg) : Segment :=
  { Start := (r.t0 : Rat) / 100
    End := (r.t1 : Rat) / 100
    Text := r.text
    Original := ""
    Translation := ""
    Speaker := spk }

/-- The segment-extraction loop of `TranscribeWithTranslation`
(lines 379-414): segment `i` receives the current speaker id, and the id
is bumped before segment `i+1` exactly when
`whisper_full_get_segment_speaker_turn_next` holds on segment `i`. -/
def extractSegs : Int → List RawSeg → List Segment
  | _, [] => []
  | spk, r :: rest =>
      mkSegment spk r :: extractSegs (if r.turnNext then spk + 1 else spk) rest

/-! ## WAV reader (`readWAVFile`) -/

/-- File contents as a byte list (each entry the value of one byte). -/
abbrev Bytes := List Nat

/-- ASCII bytes of the tag `RIFF`. -/
def riffTag : Bytes := [82, 73, 70, 70]

/-- ASCII bytes of the tag `WAVE`. -/
def waveTag : Bytes := [87, 65, 86, 69]

/-- ASCII bytes of the chunk tag `data`. -/
def chunkTagData : Bytes := [100, 97, 116, 97]

/-- The Go slice `data[i : i+n]`. -/
def sliceBytes (data : Bytes) (i n : Nat) : Bytes :=
  (data.drop i).take n

/-- The scan `for i := 12; i < len(data)-8; i++` of `readWAVFile`: the
first index `i` with `12 ≤ i` and `i + 8 < data.length` whose four bytes
read `data`; `none` when the loop falls through. -/
def findDataTag (data : Bytes) : Option Nat :=
  (List.range data.length).find? fun i =>
    decide (12 ≤ i) && decide (i + 8 < data.length) &&
      decide (sliceBytes data i 4 = chunkTagData)

/-- The sample-rate expression of `readWAVFile`:
`int(data[24]) | int(data[25])<<8 | int(data[26])<<16 | int(data[27])<<24`,
i.e. the little-endian 32-bit integer formed by bytes 24-27. -/
def wavSampleRate (data : Bytes) : Int :=
  ((data.getD 24 0 ||| (data.getD 25 0 <<< 8) ||| (data.getD 26 0 <<< 16) |||
    (data.getD 27 0 <<< 24) : Nat) : Int)

/-- `readWAVFile` (lines 493-530).  The argument is the file's contents,
`none` when `os.ReadFile` fails.  Returns the PCM bytes after the located
(or default 44-byte) header offset together with the sample rate. -/
def readWAVFile (file : Option Bytes) : Except String (Bytes × Int) :=
  match file with
  | none => .error "read failed"
  | some data =>
    if data.length < 44 then .error "WAV file too short"
    else if sliceBytes data 0 4 ≠ riffTag then .error "not a valid WAV file"
    else if sliceBytes data 8 4 ≠ waveTag then .error "not a valid WAV file"
    else
      let dataOffset : Nat :=
        match findDataTag data with
        | some i => i + 8
        | none => 44
      .ok (data.drop dataOffset, wavSampleRate data)

/-! ## Model cache (`modelCache`) and `NewWhisperCGOEngine` -/

/-- The model cache `modelCache : map[string]*cachedModel`, as an
association list from model path to an opaque handle id. -/
abbrev ModelCache := List (String × Nat)

/-- Map lookup `modelCache[modelPath]`. -/
def mcLookup (c : ModelCache) (p : String) : Option Nat :=
  match c.find? (fun e => decide (e.1 = p)) with
  | some e => some e.2
  | none => none

/-- Go map assignment `modelCache[modelPath] = cachedMdl`: overwrites any
entry already present for the key. -/
def mcInsert (c : ModelCache) (p : String) (h : Nat) : ModelCache :=
  (p, h) :: c.filter (fun e => !decide (e.1 = p))

/-- Result of `NewWhisperCGOEngine`: on success the handle id the engine
will use plus the `fromCache` flag, and the model cache after the call. -/
structure NewEngineOut where
  result : Except String (Nat × Bool)
  cache : ModelCache

/-- `NewWhisperCGOEngine` (lines 153-205) with its externals as oracles:
`fileExists` stands for the `os.Stat` check and `loadResult` for
`whisper_init_from_file_with_params` (`none` = load failed, `some h` = a
freshly loaded context `h`).  The cache is read twice in the source —
once under a read lock for the fast path and again, possibly after other
callers ran, at the final store — so the two observations are separate
arguments: `checkCache` is the map at the fast-path check and
`raceCache` the map at the moment of the store.  The store itself is a
plain map assignment with no re-check of the key. -/
def newWhisperCGOEngine (modelPath : String) (fileExists : Bool)
    (loadResult : Option Nat) (checkCache raceCache : ModelCache) :
    NewEngineOut :=
  if modelPath = "" then ⟨.error "model path required", raceCache⟩
  else if !fileExists then
    ⟨.error ("model file not found: " ++ modelPath), raceCache⟩
  else
    match mcLookup checkCache modelPath with
    | some h => ⟨.ok (h, true), raceCache⟩
    | none =>
      match loadResult with
      | none => ⟨.error ("failed to load model from " ++ modelPath), raceCache⟩
      | some ctx => ⟨.ok (ctx, false), mcInsert raceCache modelPath ctx⟩

/-! ## Callback registry -/

/-- One registry slot (`transcriptionCallbacks`).  The booleans record
whether the corresponding Go pointer field is non-nil.  Registration in
`TranscribeWithTranslation` (lines 294-301) sets only `ctx` and
`progressPercent`, leaving both function fields nil. -/
structure CallbackSlot where
  hasProgressCallback : Bool
  hasSegmentCallback : Bool
  currentSpeaker : Int
  hasProgressPercent : Bool
  deriving DecidableEq, Repr

/-- The callback registry `callbackRegistry : map[uintptr]*transcriptionCallbacks`. -/
abbrev Registry := List (Nat × CallbackSlot)

/-- Map lookup `callbackRegistry[id]`. -/
def regLookup (r : Registry) (t : Nat) : Option CallbackSlot :=
  match r.find? (fun e => decide (e.1 = t)) with
  | some e => some e.2
  | none => none

/-- Map assignment `callbackRegistry[id] = slot`. -/
def regInsert (r : Registry) (t : Nat) (s : CallbackSlot) : Registry :=
  (t, s) :: r.filter (fun e => !decide (e.1 = t))

/-- `delete(callbackRegistry, id)`. -/
def regDelete (r : Registry) (t : Nat) : Registry :=
  r.filter (fun e => !decide (e.1 = t))

/-! ## Transcription cache -/

/-- Key of the transcription cache (`transcriptionCacheKey`). -/
structure TransKey where
  audioPath : String
  modelID : String
  deriving DecidableEq, Repr

/-- The transcription cache `transcriptionCache : map[transcriptionCacheKey][]Segment`. -/
abbrev TransCache := List (TransKey × List Segment)

/-- Map lookup `transcriptionCache[key]`. -/
def tcLookup (c : TransCache) (k : TransKey) : Option (List Segment) :=
  match c.find? (fun e => decide (e.1 = k)) with
  | some e => some e.2
  | none => none

/-- Map assignment `transcriptionCache[key] = segments`. -/
def tcInsert (c : TransCache) (k : TransKey) (v : List Segment) : TransCache :=
  (k, v) :: c.filter (fun e => !decide (e.1 = k))

/-! ## The `TranscribeWithTranslation` façade -/

/-- The error cases `TranscribeWithTranslation` can return, one
constructor per `fmt.Errorf` site on its paths. -/
inductive TErr where
  | noContext
  | prepareFailure (msg : String)
  | readFailure (msg : String)
  | badSampleRate (rate : Int)
  | inferenceFailure (code : Int)
  deriving DecidableEq, Repr

/-- Observable outcome of one `TranscribeWithTranslation` invocation: the
return value, the transcription cache, the callback registry and the id
counter after the call, the sequence of segment-sink invocations made
during the call, whether the blocking `whisper_full` call ran, and the
callback token issued plus the slot value registered under it (if any). -/
structure TOut where
  result : Except TErr (List Segment)
  cache : TransCache
  registry : Registry
  counter : Nat
  segEvents : List Segment
  nativeCalled : Bool
  issuedToken : Option Nat
  registeredSlot : Option CallbackSlot

/-- The slot value stored by the registration step (lines 297-300): the
progress cell is wired, the two callback function fields are left nil and
the speaker counter starts at 0. -/
def registeredSlotValue : CallbackSlot :=
  { hasProgressCallback := false
    hasSegmentCallback := false
    currentSpeaker := 0
    hasProgressPercent := true }

/-- The part of `TranscribeWithTranslation` after the cache check and the
model-mutex acquisition (lines 252-428): audio preparation
(`prepFile` is the ffmpeg output file's contents, `.error` when the
subprocess failed), WAV reading, the 16 kHz check, callback registration
(only when a progress sink was supplied), the blocking native call
(`native` is its oracle outcome), the deferred de-registration, segment
extraction and the conditional cache write-back. -/
def transcribeNative (audioPath modelID translateTo : String)
    (hasProgressCb hasSegCb : Bool) (cache : TransCache)
    (registry : Registry) (counter : Nat)
    (prepFile : Except String Bytes) (native : NativeOutcome) : TOut :=
  match prepFile with
  | .error msg =>
    { result := .error (.prepareFailure msg), cache := cache
      registry := registry, counter := counter, segEvents := []
      nativeCalled := false, issuedToken := none, registeredSlot := none }
  | .ok wavBytes =>
    match readWAVFile (some wavBytes) with
    | .error msg =>
      { result := .error (.readFailure msg), cache := cache
        registry := registry, counter := counter, segEvents := []
        nativeCalled := false, issuedToken := none, registeredSlot := none }
    | .ok (_, sampleRate) =>
      if sampleRate ≠ 16000 then
        { result := .error (.badSampleRate sampleRate), cache := cache
          registry := registry, counter := counter, segEvents := []
          nativeCalled := false, issuedToken := none, registeredSlot := none }
      else
        let callbackID : Nat := if hasProgressCb then counter else 0
        let registry1 : Registry :=
          if hasProgressCb then regInsert registry counter registeredSlotValue
          else registry
        let counter1 : Nat := if hasProgressCb then counter + 1 else counter
        let registryFinal : Registry :=
          if callbackID ≠ 0 then regDelete registry1 callbackID else registry1
        let token : Option Nat := if hasProgressCb then some counter else none
        let slot : Option CallbackSlot :=
          if hasProgressCb then some registeredSlotValue else none
        if native.status ≠ 0 then
          { result := .error (.inferenceFailure native.status), cache := cache
            registry := registryFinal, counter := counter1, segEvents := []
            nativeCalled := true, issuedToken := token, registeredSlot := slot }
        else
          let segments := extractSegs 0 native.segs
          { result := .ok segments
            cache :=
              if translateTo = "" then
                tcInsert cache ⟨audioPath, modelID⟩ segments
              else cache
            registry := registryFinal, counter := counter1
            segEvents := if hasSegCb then segments else []
            nativeCalled := true, issuedToken := token, registeredSlot := slot }

/-- `TranscribeWithTranslation` (lines 219-429).  `ctxOk` models the nil
check on the engine's context; `hasProgressCb`/`hasSegCb` record whether
the caller supplied a progress sink / segment sink; `cache`, `registry`
and `counter` are the global mutable state at entry; `prepFile` and
`native` are the external oracles.  `cpuThreads` only parameterizes the
native call and does not affect the modelled observables. -/
def transcribeWithTranslation (audioPath modelID : String) (cpuThreads : Int)
    (translateTo : String) (hasProgressCb hasSegCb ctxOk : Bool)
    (cache : TransCache) (registry : Registry) (counter : Nat)
    (prepFile : Except String Bytes) (native : NativeOutcome) : TOut :=
  if !ctxOk then
    { result := .error .noContext, cache := cache, registry := registry
      counter := counter, segEvents := [], nativeCalled := false
      issuedToken := none, registeredSlot := none }
  else if translateTo = "" then
    match tcLookup cache ⟨audioPath, modelID⟩ with
    | some cachedSegments =>
      { result := .ok cachedSegments, cache := cache, registry := registry
        counter := counter
        segEvents := if hasSegCb then cachedSegments else []
        nativeCalled := false, issuedToken := none, registeredSlot := none }
    | none =>
      transcribeNative audioPath modelID translateTo hasProgressCb hasSegCb
        cache registry counter prepFile native
  else
    transcribeNative audioPath modelID translateTo hasProgressCb hasSegCb
      cache registry counter prepFile native

/-! ## Progress polling loop -/

/-- The progress polling goroutine (lines 333-355) as a function of the
sequence of values it samples from the atomic progress cell: it carries
`lastProgress` (initially -1), updates it on every change, and emits the
sampled value exactly when the value changed since the last tick and lies
in 1..100. -/
def pollLoop : Int → List Int → List Int
  | _, [] => []
  | last, cur :: rest =>
    if cur ≠ last then
      (if 0 < cur ∧ cur ≤ 100 then [cur] else []) ++ pollLoop cur rest
    else pollLoop last rest

/-- The status values emitted by the polling goroutine over one run, for
a given sequence of sampled progress values. -/
def pollEmissions (samples : List Int) : List Int :=
  pollLoop (-1) samples

/-! ## Model-handle locking discipline

Each `cachedModel` carries a `sync.Mutex`; `TranscribeWithTranslation`
takes it (line 249) before the blocking `whisper_full` call and releases
it, via `defer`, when the call's work is done.  The discipline for two
invocations sharing one handle is embedded as a small transition system:
a step is enabled exactly when the corresponding Go statement could
execute, and `Mutex.Lock` is enabled only while no one holds the mutex
(which is what makes the second caller block). -/

/-- Phase of one invocation with respect to its model handle's mutex and
the blocking native call. -/
inductive CallPhase where
  | beforeLock
  | locked
  | inNative
  | afterNative
  | done
  deriving DecidableEq, Repr

/-- Interleaving state of two invocations that resolved to the same
`cachedModel`: which invocation (if any) holds the handle's mutex, and
each invocation's phase. -/
structure ModelLockState where
  owner : Option (Fin 2)
  phase : Fin 2 → CallPhase

/-- Initial state: the mutex is free and both invocations are before
`e.model.mutex.Lock()`. -/
def initLockState : ModelLockState :=
  { owner := none, phase := fun _ => CallPhase.beforeLock }

/-- Atomic steps of the two invocations.  `acquire` is
`e.model.mutex.Lock()` — enabled only while the mutex is free;
`enterNative` and `exitNative` bracket the blocking `whisper_full` call,
both requiring the mutex to be held by the stepping invocation; `release`
is the deferred `Unlock`. -/
inductive LockStep : ModelLockState → ModelLockState → Prop where
  | acquire (s : ModelLockState) (i : Fin 2) :
      s.owner = none → s.phase i = CallPhase.beforeLock →
      LockStep s ⟨some i, Function.update s.phase i CallPhase.locked⟩
  | enterNative (s : ModelLockState) (i : Fin 2) :
      s.owner = some i → s.phase i = CallPhase.locked →
      LockStep s ⟨s.owner, Function.update s.phase i CallPhase.inNative⟩
  | exitNative (s : ModelLockState) (i : Fin 2) :
      s.owner = some i → s.phase i = CallPhase.inNative →
      LockStep s ⟨s.owner, Function.update s.phase i CallPhase.afterNative⟩
  | release (s : ModelLockState) (i : Fin 2) :
      s.owner = some i → s.phase i = CallPhase.afterNative →
      LockStep s ⟨none, Function.update s.phase i CallPhase.done⟩

/-- States reachable from the initial state by interleaved steps. -/
inductive LockReachable : ModelLockState → Prop where
  | init : LockReachable initLockState
  | step {s t : ModelLockState} :
      LockReachable s → LockStep s t → LockReachable t

/-- An invocation that is past `Lock` and before `Unlock` owns the
mutex.  This is the inductive invariant behind mutual exclusion. -/
def holdsLockInv (s : ModelLockState) : Prop :=
  ∀ i : Fin 2,
    s.phase i = CallPhase.locked ∨ s.phase i = CallPhase.inNative ∨
      s.phase i = CallPhase.afterNative →
    s.owner = some i

/-! ## Concrete inputs used by the witnesses -/

/-- A minimal well-formed 16 kHz WAV file: `RIFF` at offset 0, `WAVE` at
offset 8, bytes 24-27 encoding 16000 little-endian, no `data` chunk tag,
and four PCM bytes after the 44-byte header. -/
def sampleWav : Bytes :=
  [82, 73, 70, 70, 0, 0, 0, 0, 87, 65, 86, 69] ++ List.replicate 12 0 ++
    [128, 62, 0, 0] ++ List.replicate 16 0 ++ [0, 0, 0, 0]

/-- A concrete native segment table: two segments with a speaker turn
reported on the first. -/
def wSegs : List RawSeg :=
  [⟨0, 100, "x", true⟩, ⟨100, 200, "y", false⟩]

/-- A concrete successful native outcome producing `wSegs`. -/
def wNat1 : NativeOutcome := ⟨0, wSegs⟩

/-- The segment list extracted from `wSegs`. -/
def wL : List Segment := extractSegs 0 wSegs

/-- The transcription cache left behind by one concrete successful
non-translated call. -/
def wCache1 : TransCache :=
  (transcribeWithTranslation "a" "turbo" 4 "" true false true [] [] 1
    (.ok sampleWav) wNat1).cache

/-- The lock state after invocation 0 acquired the handle's mutex. -/
def lockS1 : ModelLockState :=
  { owner := some 0
    phase := Function.update initLockState.phase 0 CallPhase.locked }

/-- The lock state after invocation 0 entered the blocking native call. -/
def lockS2 : ModelLockState :=
  { owner := some 0
    phase := Function.update lockS1.phase 0 CallPhase.inNative }

/-! ## Lemmas about the embedded maps -/

theorem tcLookup_tcInsert_self (c : TransCache) (k : TransKey)
    (v : List Segment) : tcLookup (tcInsert c k v) k = some v := by
  simp [tcLookup, tcInsert, List.find?]

theorem mcLookup_mcInsert_self (c : ModelCache) (p : String) (h : Nat) :
    mcLookup (mcInsert c p h) p = some h := by
  simp [mcLookup, mcInsert, List.find?]

theorem regLookup_regDelete_self (r : Registry) (t : Nat) :
    regLookup (regDelete r t) t = none := by
  induction r with
  | nil => rfl
  | cons e rest ih =>
    by_cases h : e.1 = t
    · simpa [regDelete, regLookup, List.filter, h] using ih
    · simpa [regDelete, regLookup, List.filter, List.find?, h] using ih

/-! ## Lemmas about the segment-extraction loop -/

theorem extractSegs_length (spk : Int) (rs : List RawSeg) :
    (extractSegs spk rs).length = rs.length := by
  induction rs generalizing spk with
  | nil => rfl
  | cons r rest ih => simp [extractSegs, ih]

theorem extractSegs_speaker_zero (spk : Int) (rs : List RawSeg)
    (h : 0 < (extractSegs spk rs).length) :
    ((extractSegs spk rs).get ⟨0, h⟩).Speaker = spk := by
  cases rs with
  | nil => simp [extractSegs] at h
  | cons r rest => rfl

theorem extractSegs_speaker_succ (rs : List RawSeg) (spk : Int) (i : Nat)
    (h1 : i + 1 < (extractSegs spk rs).length) (h2 : i < rs.length) :
    ((extractSegs spk rs).get ⟨i + 1, h1⟩).Speaker =
      ((extractSegs spk rs).get ⟨i, Nat.lt_of_succ_lt h1⟩).Speaker +
        (if (rs.get ⟨i, h2⟩).turnNext then 1 else 0) := by
  induction rs generalizing spk i with
  | nil => simp [extractSegs] at h1
  | cons r rest ih =>
    cases i with
    | zero =>
      cases rest with
      | nil => simp [extractSegs] at h1
      | cons r2 rest2 =>
        by_cases ht : r.turnNext <;>
          simp [extractSegs, mkSegment, ht, List.get]
    | succ j =>
      have h1r : j + 1 < (extractSegs (if r.turnNext then spk + 1 else spk)
          rest).length := by
        simpa [extractSegs] using h1
      have h2r : j < rest.length := by simpa using h2
      simpa [extractSegs, List.get] using
        ih (if r.turnNext then spk + 1 else spk) j h1r h2r

/-! ## Characterization lemmas about `transcribeNative` -/

theorem transcribeNative_result_ok (p m tl : String) (hp hs : Bool)
    (c : TransCache) (r : Registry) (ctr : Nat)
    (prep : Except String Bytes) (nat : NativeOutcome) (L : List Segment)
    (h : (transcribeNative p m tl hp hs c r ctr prep nat).result = .ok L) :
    L = extractSegs 0 nat.segs ∧
      (transcribeNative p m tl hp hs c r ctr prep nat).cache =
        (if tl = "" then tcInsert c ⟨p, m⟩ L else c) ∧
      (transcribeNative p m tl hp hs c r ctr prep nat).segEvents =
        (if hs then L else []) ∧
      (transcribeNative p m tl hp hs c r ctr prep nat).nativeCalled = true := by
  cases prep with
  | error msg => simp [transcribeNative] at h
  | ok wav =>
    cases hre : readWAVFile (some wav) with
    | error msg => simp [transcribeNative, hre] at h
    | ok pr =>
      obtain ⟨pcm, rate⟩ := pr
      by_cases hrt : rate = 16000
      · by_cases hst : nat.status = 0
        · simp [transcribeNative, hre, hrt, hst] at h ⊢
          simp [← h]
        · simp [transcribeNative, hre, hrt, hst] at h
      · simp [transcribeNative, hre, hrt] at h

theorem transcribeNative_cache_of_translate (p m tl : String) (hp hs : Bool)
    (c : TransCache) (r : Registry) (ctr : Nat)
    (prep : Except String Bytes) (nat : NativeOutcome) (htl : tl ≠ "") :
    (transcribeNative p m tl hp hs c r ctr prep nat).cache = c := by
  cases prep with
  | error msg => simp [transcribeNative]
  | ok wav =>
    cases hre : readWAVFile (some wav) with
    | error msg => simp [transcribeNative, hre]
    | ok pr =>
      obtain ⟨pcm, rate⟩ := pr
      by_cases hrt : rate = 16000
      · by_cases hst : nat.status = 0 <;>
          simp [transcribeNative, hre, hrt, hst, htl]
      · simp [transcribeNative, hre, hrt]

theorem transcribeNative_independent_of_cache (p m tl : String)
    (hp hs : Bool) (c1 c2 : TransCache) (r : Registry) (ctr : Nat)
    (prep : Except String Bytes) (nat : NativeOutcome) :
    (transcribeNative p m tl hp hs c1 r ctr prep nat).result =
        (transcribeNative p m tl hp hs c2 r ctr prep nat).result ∧
      (transcribeNative p m tl hp hs c1 r ctr prep nat).segEvents =
        (transcribeNative p m tl hp hs c2 r ctr prep nat).segEvents ∧
      (transcribeNative p m tl hp hs c1 r ctr prep nat).nativeCalled =
        (transcribeNative p m tl hp hs c2 r ctr prep nat).nativeCalled := by
  cases prep with
  | error msg => simp [transcribeNative]
  | ok wav =>
    cases hre : readWAVFile (some wav) with
    | error msg => simp [transcribeNative, hre]
    | ok pr =>
      obtain ⟨pcm, rate⟩ := pr
      by_cases hrt : rate = 16000
      · by_cases hst : nat.status = 0 <;>
          simp [transcribeNative, hre, hrt, hst]
      · simp [transcribeNative, hre, hrt]

theorem transcribeNative_inference_failure (p m tl : String) (hp hs : Bool)
    (c : TransCache) (r : Registry) (ctr : Nat)
    (prep : Except String Bytes) (nat : NativeOutcome)
    (hnc : (transcribeNative p m tl hp hs c r ctr prep nat).nativeCalled =
      true)
    (hst : nat.status ≠ 0) :
    (transcribeNative p m tl hp hs c r ctr prep nat).result =
        .error (.inferenceFailure nat.status) ∧
      (transcribeNative p m tl hp hs c r ctr prep nat).cache = c := by
  cases prep with
  | error msg => simp [transcribeNative] at hnc
  | ok wav =>
    cases hre : readWAVFile (some wav) with
    | error msg => simp [transcribeNative, hre] at hnc
    | ok pr =>
      obtain ⟨pcm, rate⟩ := pr
      by_cases hrt : rate = 16000
      · simp [transcribeNative, hre, hrt, hst]
      · simp [transcribeNative, hre, hrt] at hnc

theorem transcribeNative_registration (p m tl : String) (hs : Bool)
    (c : TransCache) (r : Registry) (ctr : Nat)
    (prep : Except String Bytes) (nat : NativeOutcome)
    (hnc : (transcribeNative p m tl true hs c r ctr prep nat).nativeCalled =
      true) :
    (transcribeNative p m tl true hs c r ctr prep nat).issuedToken =
        some ctr ∧
      (transcribeNative p m tl true hs c r ctr prep nat).registeredSlot =
        some registeredSlotValue ∧
      (transcribeNative p m tl true hs c r ctr prep nat).counter =
        ctr + 1 := by
  cases prep with
  | error msg => simp [transcribeNative] at hnc
  | ok wav =>
    cases hre : readWAVFile (some wav) with
    | error msg => simp [transcribeNative, hre] at hnc
    | ok pr =>
      obtain ⟨pcm, rate⟩ := pr
      by_cases hrt : rate = 16000
      · by_cases hst : nat.status = 0 <;>
          simp [transcribeNative, hre, hrt, hst]
      · simp [transcribeNative, hre, hrt] at hnc

theorem transcribeNative_cleanup (p m tl : String) (hp hs : Bool)
    (c : TransCache) (r : Registry) (ctr : Nat)
    (prep : Except String Bytes) (nat : NativeOutcome) (t : Nat)
    (hctr : ctr ≠ 0)
    (ht : (transcribeNative p m tl hp hs c r ctr prep nat).issuedToken =
      some t) :
    regLookup (transcribeNative p m tl hp hs c r ctr prep nat).registry t =
      none := by
  cases prep with
  | error msg => simp [transcribeNative] at ht
  | ok wav =>
    cases hre : readWAVFile (some wav) with
    | error msg => simp [transcribeNative, hre] at ht
    | ok pr =>
      obtain ⟨pcm, rate⟩ := pr
      by_cases hrt : rate = 16000
      · by_cases hhp : hp
        · have htt : t = ctr := by
            by_cases hst : nat.status = 0 <;>
              simp [transcribeNative, hre, hrt, hst, hhp] at ht <;> omega
          subst htt
          by_cases hst : nat.status = 0 <;>
            simp [transcribeNative, hre, hrt, hst, hhp, hctr,
              regLookup_regDelete_self]
        · by_cases hst : nat.status = 0 <;>
            simp [transcribeNative, hre, hrt, hst, hhp] at ht
      · simp [transcribeNative, hre, hrt] at ht

/-! ## Bridging lemmas about `transcribeWithTranslation` -/

theorem tw_empty_ok_cache (p m : String) (ct : Int) (hp hs : Bool)
    (cache : TransCache) (r : Registry) (ctr : Nat)
    (prep : Except String Bytes) (nat : NativeOutcome) (L : List Segment)
    (h : (transcribeWithTranslation p m ct "" hp hs true cache r ctr prep
      nat).result = .ok L) :
    tcLookup (transcribeWithTranslation p m ct "" hp hs true cache r ctr
      prep nat).cache ⟨p, m⟩ = some L := by
  cases hl : tcLookup cache ⟨p, m⟩ with
  | some cs =>
    simp [transcribeWithTranslation, hl] at h ⊢
    exact h
  | none =>
    simp [transcribeWithTranslation, hl] at h ⊢
    obtain ⟨hL, hcache, -, -⟩ :=
      transcribeNative_result_ok p m "" hp hs cache r ctr prep nat L h
    rw [hcache]
    simp [tcLookup_tcInsert_self]

theorem tw_nativeCalled_eq (p m : String) (ct : Int) (tl : String)
    (hp hs ck : Bool) (cache : TransCache) (r : Registry) (ctr : Nat)
    (prep : Except String Bytes) (nat : NativeOutcome)
    (h : (transcribeWithTranslation p m ct tl hp hs ck cache r ctr prep
      nat).nativeCalled = true) :
    transcribeWithTranslation p m ct tl hp hs ck cache r ctr prep nat =
      transcribeNative p m tl hp hs cache r ctr prep nat := by
  cases ck with
  | false => simp [transcribeWithTranslation] at h
  | true =>
    by_cases htl : tl = ""
    · cases hl : tcLookup cache ⟨p, m⟩ with
      | some cs => simp [transcribeWithTranslation, htl, hl] at h
      | none => simp [transcribeWithTranslation, htl, hl]
    · simp [transcribeWithTranslation, htl]

theorem tw_token_eq (p m : String) (ct : Int) (tl : String)
    (hp hs ck : Bool) (cache : TransCache) (r : Registry) (ctr : Nat)
    (prep : Except String Bytes) (nat : NativeOutcome) (t : Nat)
    (h : (transcribeWithTranslation p m ct tl hp hs ck cache r ctr prep
      nat).issuedToken = some t) :
    transcribeWithTranslation p m ct tl hp hs ck cache r ctr prep nat =
      transcribeNative p m tl hp hs cache r ctr prep nat := by
  cases ck with
  | false => simp [transcribeWithTranslation] at h
  | true =>
    by_cases htl : tl = ""
    · cases hl : tcLookup cache ⟨p, m⟩ with
      | some cs => simp [transcribeWithTranslation, htl, hl] at h
      | none => simp [transcribeWithTranslation, htl, hl]
    · simp [transcribeWithTranslation, htl]

/-! ## The locking invariant -/

theorem lockInv_reachable (s : ModelLockState) (h : LockReachable s) :
    holdsLockInv s := by
  induction h with
  | init =>
    intro i hi
    simp [initLockState] at hi
  | step hr hstep ih =>
    cases hstep with
    | acquire i hown hph =>
      intro j hj
      by_cases hji : j = i
      · subst hji; rfl
      · simp only [Function.update_noteq hji] at hj
        have hsj := ih j hj
        rw [hown] at hsj
        simp at hsj
    | enterNative i hown hph =>
      intro j hj
      by_cases hji : j = i
      · subst hji; exact hown
      · simp only [Function.update_noteq hji] at hj
        exact ih j hj
    | exitNative i hown hph =>
      intro j hj
      by_cases hji : j = i
      · subst hji; exact hown
      · simp only [Function.update_noteq hji] at hj
        exact ih j hj
    | release i hown hph =>
      intro j hj
      by_cases hji : j = i
      · subst hji
        simp only [Function.update_same] at hj
        rcases hj with hj | hj | hj <;> simp at hj
      · simp only [Function.update_noteq hji] at hj
        have hsj := ih j hj
        rw [hown] at hsj
        injection hsj with hv
        exact absurd hv.symm hji

/-! ## The poll-loop de-duplication invariant -/

theorem pollLoop_chain (last : Int) (samples : List Int)
    (hin : ∀ v ∈ samples, 0 < v ∧ v ≤ 100) :
    List.Chain' (fun a b => a ≠ b) (pollLoop last samples) ∧
      ∀ h, (pollLoop last samples).head? = some h → h ≠ last := by
  induction samples generalizing last with
  | nil => simp [pollLoop]
  | cons cur rest ih =>
    have hcur := hin cur (List.mem_cons_self cur rest)
    have hrest : ∀ v ∈ rest, 0 < v ∧ v ≤ 100 := fun v hv =>
      hin v (List.mem_cons_of_mem cur hv)
    by_cases hc : cur = last
    · simpa [pollLoop, hc] using ih last hrest
    · obtain ⟨ihc, ihh⟩ := ih cur hrest
      simp only [pollLoop, if_pos hc, if_pos hcur, List.singleton_append]
      refine ⟨List.chain'_cons'.mpr ⟨?_, ihc⟩, ?_⟩
      · intro y hy
        exact fun he => ihh y (Option.mem_def.mp hy) he.symm
      · intro h hh
        simp only [List.head?_cons, Option.some.injEq] at hh
        subst hh
        exact hc

/-! ## Claim theorems -/

/-- Claim C1 — idempotence of cached transcription: for every audio path
and model id, with no translation target, if a first
`TranscribeWithTranslation` call returns segment list `L` successfully,
then a second call with the same path and model id (run against the
caches the first call left behind, with a segment sink supplied, and
with arbitrary other inputs and oracles) returns a list equal to `L`,
replays every segment of `L` through the segment sink in order, and does
not invoke the blocking native call `whisper_full`. -/
theorem c1_cached_idempotence (p m : String) (ct1 ct2 : Int)
    (hp1 hp2 hs1 : Bool) (cache : TransCache) (r1 r2 : Registry)
    (ctr1 ctr2 : Nat) (prep1 prep2 : Except String Bytes)
    (nat1 nat2 : NativeOutcome) (L : List Segment)
    (h1 : (transcribeWithTranslation p m ct1 "" hp1 hs1 true cache r1 ctr1
      prep1 nat1).result = .ok L) :
    (transcribeWithTranslation p m ct2 "" hp2 true true
        (transcribeWithTranslation p m ct1 "" hp1 hs1 true cache r1 ctr1
          prep1 nat1).cache r2 ctr2 prep2 nat2).result = .ok L ∧
      (transcribeWithTranslation p m ct2 "" hp2 true true
        (transcribeWithTranslation p m ct1 "" hp1 hs1 true cache r1 ctr1
          prep1 nat1).cache r2 ctr2 prep2 nat2).segEvents = L ∧
      (transcribeWithTranslation p m ct2 "" hp2 true true
        (transcribeWithTranslation p m ct1 "" hp1 hs1 true cache r1 ctr1
          prep1 nat1).cache r2 ctr2 prep2 nat2).nativeCalled = false := by
  have hc := tw_empty_ok_cache p m ct1 hp1 hs1 cache r1 ctr1 prep1 nat1 L h1
  generalize hg : (transcribeWithTranslation p m ct1 "" hp1 hs1 true cache
    r1 ctr1 prep1 nat1).cache = cache1 at hc ⊢
  simp [transcribeWithTranslation, hc]

/-- Claim C2 — mutual exclusion on a shared model handle: in every state
reachable by interleaving two invocations that resolved to the same
`cachedModel`, an invocation inside the blocking native call holds that
handle's mutex, and consequently the two invocations are never inside
the native call simultaneously.  (That the second caller blocks until
release is the `acquire` step's enabling condition: `Mutex.Lock` fires
only while no one owns the mutex.) -/
theorem c2_mutual_exclusion (s : ModelLockState) (h : LockReachable s) :
    (∀ i : Fin 2, s.phase i = CallPhase.inNative → s.owner = some i) ∧
      ¬(s.phase 0 = CallPhase.inNative ∧
        s.phase 1 = CallPhase.inNative) := by
  have inv := lockInv_reachable s h
  refine ⟨fun i hi => inv i (Or.inr (Or.inl hi)), ?_⟩
  rintro ⟨h0, h1⟩
  have e0 := inv 0 (Or.inr (Or.inl h0))
  have e1 := inv 1 (Or.inr (Or.inl h1))
  rw [e0] at e1
  injection e1 with he
  exact absurd he (by decide)

/-- Claim C3 (counterexample) — the claim says a racing insert preserves
an existing handle.  Concretely: the fast-path check saw an empty cache,
a context `2` was loaded, and by store time another caller had already
cached handle `1` for path `m`.  The store overwrites: afterwards the
cache maps `m` to `2`, not to the existing handle `1`, and the loading
caller keeps its fresh context (`fromCache = false`). -/
theorem c3_counterexample :
    (newWhisperCGOEngine "m" true (some 2) [] [("m", 1)]).result =
        .ok (2, false) ∧
      mcLookup (newWhisperCGOEngine "m" true (some 2) [] [("m", 1)]).cache
          "m" = some 2 ∧
      ¬ mcLookup (newWhisperCGOEngine "m" true (some 2) [] [("m", 1)]).cache
          "m" = some 1 := by
  decide

/-- Claim C3 (amended) — the store in `NewWhisperCGOEngine`'s slow path
does not re-check the key: whatever the cache holds at store time, after
the store the cache maps the path to the just-loaded handle, which every
subsequent caller then shares; the engine that loaded it uses it with
`fromCache = false`. -/
theorem c3_insert_overwrites (modelPath : String) (loaded : Nat)
    (checkCache raceCache : ModelCache) (hpath : modelPath ≠ "")
    (hmiss : mcLookup checkCache modelPath = none) :
    (newWhisperCGOEngine modelPath true (some loaded) checkCache
        raceCache).result = .ok (loaded, false) ∧
      mcLookup (newWhisperCGOEngine modelPath true (some loaded) checkCache
        raceCache).cache modelPath = some loaded := by
  simp [newWhisperCGOEngine, hpath, hmiss, mcLookup_mcInsert_self]

/-- Claim C4 (counterexample) — the claim says the slot registered before
the blocking native call holds both the progress cell and the
caller-supplied segment sink.  Concretely: an invocation with both sinks
supplied reaches the native call, and the slot it registered wires the
progress cell but leaves the segment-callback field nil — the segment
sink is not in the slot. -/
theorem c4_counterexample :
    (transcribeWithTranslation "a" "turbo" 4 "" true true true [] [] 1
        (.ok sampleWav) ⟨0, []⟩).nativeCalled = true ∧
      (transcribeWithTranslation "a" "turbo" 4 "" true true true [] [] 1
        (.ok sampleWav) ⟨0, []⟩).registeredSlot =
        some registeredSlotValue ∧
      registeredSlotValue.hasProgressPercent = true ∧
      ¬ registeredSlotValue.hasSegmentCallback = true := by
  decide

/-- Claim C4 (amended) — every invocation that was given a progress sink
and reaches the blocking native call first registers a `CallbackSlot`
under a fresh token (the current counter value; the counter is then
advanced), and that slot holds the progress cell with its speaker
counter at 0 — but not the caller-supplied segment sink: both function
fields are left nil, so live segment delivery through the registry does
not occur for this invocation (segments are delivered by the façade
after the native call returns). -/
theorem c4_slot_registration (p m tl : String) (ct : Int) (hs ck : Bool)
    (cache : TransCache) (r : Registry) (ctr : Nat)
    (prep : Except String Bytes) (nat : NativeOutcome)
    (hnc : (transcribeWithTranslation p m ct tl true hs ck cache r ctr
      prep nat).nativeCalled = true) :
    (transcribeWithTranslation p m ct tl true hs ck cache r ctr prep
        nat).issuedToken = some ctr ∧
      (transcribeWithTranslation p m ct tl true hs ck cache r ctr prep
        nat).counter = ctr + 1 ∧
      (transcribeWithTranslation p m ct tl true hs ck cache r ctr prep
        nat).registeredSlot = some registeredSlotValue ∧
      registeredSlotValue.hasProgressPercent = true ∧
      registeredSlotValue.currentSpeaker = 0 ∧
      registeredSlotValue.hasSegmentCallback = false := by
  have heq := tw_nativeCalled_eq p m ct tl true hs ck cache r ctr prep nat
    hnc
  rw [heq] at hnc ⊢
  obtain ⟨h1, h2, h3⟩ :=
    transcribeNative_registration p m tl hs cache r ctr prep nat hnc
  exact ⟨h1, h3, h2, rfl, rfl, rfl⟩

/-- Claim C5 — registry cleanup on every exit path: after any
`TranscribeWithTranslation` call (the global id counter being nonzero,
as it starts at 1 and only increments), the callback registry contains
no slot under the token issued to that call, whatever the outcome. -/
theorem c5_registry_cleanup (p m tl : String) (ct : Int) (hp hs ck : Bool)
    (cache : TransCache) (r : Registry) (ctr : Nat)
    (prep : Except String Bytes) (nat : NativeOutcome) (t : Nat)
    (hctr : ctr ≠ 0)
    (ht : (transcribeWithTranslation p m ct tl hp hs ck cache r ctr prep
      nat).issuedToken = some t) :
    regLookup (transcribeWithTranslation p m ct tl hp hs ck cache r ctr
      prep nat).registry t = none := by
  have heq := tw_token_eq p m ct tl hp hs ck cache r ctr prep nat t ht
  rw [heq] at ht ⊢
  exact transcribeNative_cleanup p m tl hp hs cache r ctr prep nat t hctr
    ht

/-- Claim C6 — speaker monotonicity of the returned list: when a
`TranscribeWithTranslation` call runs the native engine and returns
segment list `L` successfully, `L` has one segment per engine-reported
segment, segment 0 carries speaker id 0, the id at index `i+1` exceeds
the id at index `i` by exactly 1 when the engine reported the
turn-boundary flag on segment `i` and is equal otherwise, and the
sequence of speaker ids is non-decreasing. -/
theorem c6_speaker_monotonicity (p m tl : String) (ct : Int)
    (hp hs ck : Bool) (cache : TransCache) (r : Registry) (ctr : Nat)
    (prep : Except String Bytes) (nat : NativeOutcome) (L : List Segment)
    (hnc : (transcribeWithTranslation p m ct tl hp hs ck cache r ctr prep
      nat).nativeCalled = true)
    (hok : (transcribeWithTranslation p m ct tl hp hs ck cache r ctr prep
      nat).result = .ok L) :
    L.length = nat.segs.length ∧
      (∀ h0 : 0 < L.length, (L.get ⟨0, h0⟩).Speaker = 0) ∧
      (∀ i, ∀ h1 : i + 1 < L.length, ∀ h2 : i < nat.segs.length,
        (L.get ⟨i + 1, h1⟩).Speaker =
          (L.get ⟨i, Nat.lt_of_succ_lt h1⟩).Speaker +
            (if (nat.segs.get ⟨i, h2⟩).turnNext then 1 else 0)) ∧
      (∀ i, ∀ h1 : i + 1 < L.length,
        (L.get ⟨i, Nat.lt_of_succ_lt h1⟩).Speaker ≤
          (L.get ⟨i + 1, h1⟩).Speaker) := by
  have heq := tw_nativeCalled_eq p m ct tl hp hs ck cache r ctr prep nat
    hnc
  rw [heq] at hok
  obtain ⟨hL, -, -, -⟩ :=
    transcribeNative_result_ok p m tl hp hs cache r ctr prep nat L hok
  subst hL
  refine ⟨extractSegs_length 0 nat.segs, ?_, ?_, ?_⟩
  · intro h0
    exact extractSegs_speaker_zero 0 nat.segs h0
  · intro i h1 h2
    exact extractSegs_speaker_succ nat.segs 0 i h1 h2
  · intro i h1
    have hlen := extractSegs_length 0 nat.segs
    have h2 : i < nat.segs.length := by omega
    rw [extractSegs_speaker_succ nat.segs 0 i h1 h2]
    split <;> omega

/-- Claim C7 — translation bypasses the transcription cache entirely:
for every call with a non-empty translation target, the transcription
cache after the call equals the cache before it, and the cache's prior
contents influence neither the returned value nor the segment-sink
events (two runs differing only in the initial cache agree on both). -/
theorem c7_translation_bypasses_cache (p m tl : String) (ct : Int)
    (hp hs ck : Bool) (cache cache2 : TransCache) (r : Registry)
    (ctr : Nat) (prep : Except String Bytes) (nat : NativeOutcome)
    (htl : tl ≠ "") :
    (transcribeWithTranslation p m ct tl hp hs ck cache r ctr prep
        nat).cache = cache ∧
      (transcribeWithTranslation p m ct tl hp hs ck cache r ctr prep
          nat).result =
        (transcribeWithTranslation p m ct tl hp hs ck cache2 r ctr prep
          nat).result ∧
      (transcribeWithTranslation p m ct tl hp hs ck cache r ctr prep
          nat).segEvents =
        (transcribeWithTranslation p m ct tl hp hs ck cache2 r ctr prep
          nat).segEvents := by
  cases ck with
  | false => simp [transcribeWithTranslation]
  | true =>
    simp only [transcribeWithTranslation, Bool.not_true, Bool.false_eq_true,
      if_false, if_neg htl]
    obtain ⟨hres, hseg, -⟩ := transcribeNative_independent_of_cache p m tl
      hp hs cache cache2 r ctr prep nat
    exact ⟨transcribeNative_cache_of_translate p m tl hp hs cache r ctr
      prep nat htl, hres, hseg⟩

/-- Claim C8 — inference failure is terminal and atomic: if the call
reaches the blocking native call and that call returns a nonzero status,
`TranscribeWithTranslation` returns the `InferenceFailure` error carrying
the code rather than a segment list, and the transcription cache is left
exactly as it was. -/
theorem c8_inference_failure (p m tl : String) (ct : Int)
    (hp hs ck : Bool) (cache : TransCache) (r : Registry) (ctr : Nat)
    (prep : Except String Bytes) (nat : NativeOutcome)
    (hnc : (transcribeWithTranslation p m ct tl hp hs ck cache r ctr prep
      nat).nativeCalled = true)
    (hst : nat.status ≠ 0) :
    (transcribeWithTranslation p m ct tl hp hs ck cache r ctr prep
        nat).result = .error (.inferenceFailure nat.status) ∧
      (transcribeWithTranslation p m ct tl hp hs ck cache r ctr prep
        nat).cache = cache := by
  have heq := tw_nativeCalled_eq p m ct tl hp hs ck cache r ctr prep nat
    hnc
  rw [heq] at hnc ⊢
  exact transcribeNative_inference_failure p m tl hp hs cache r ctr prep
    nat hnc hst

/-- Claim C9 (counterexample) — the claim says no two consecutive
emitted status messages ever carry the same progress value, over any
sampled sequence.  Concretely, sampling 5, then 0 (the cell's initial
value, outside the emittable range 1..100), then 5 again emits [5, 5]:
two consecutive messages with the same value. -/
theorem c9_counterexample :
    pollEmissions [5, 0, 5] = [5, 5] ∧
      ¬ List.Chain' (fun a b : Int => a ≠ b) (pollEmissions [5, 0, 5]) := by
  refine ⟨rfl, ?_⟩
  rw [show pollEmissions [5, 0, 5] = [5, 5] from rfl]
  simp [List.chain'_cons]

/-- Claim C9 (amended) — over any sequence of sampled values all lying
in the emittable range 1..100, the polling task never emits two
consecutive status messages carrying the same progress value. -/
theorem c9_dedup_in_range (samples : List Int)
    (hin : ∀ v ∈ samples, 0 < v ∧ v ≤ 100) :
    List.Chain' (fun a b => a ≠ b) (pollEmissions samples) :=
  (pollLoop_chain (-1) samples hin).1

/-- Claim C10 — WAV acceptance: `readWAVFile` fails exactly when the
file cannot be read, is shorter than 44 bytes, or lacks `RIFF` at offset
0 or `WAVE` at offset 8; and every readable input of at least 44 bytes
carrying those two tags and containing no `data` chunk tag succeeds,
returning the bytes from fixed offset 44 as PCM data and the
little-endian 32-bit integer formed by bytes 24-27 as the sample rate,
whatever bytes actually follow the header. -/
theorem c10_wav_acceptance :
    (∃ e, readWAVFile none = .error e) ∧
      (∀ data : Bytes,
        (∃ e, readWAVFile (some data) = .error e) ↔
          (data.length < 44 ∨ sliceBytes data 0 4 ≠ riffTag ∨
            sliceBytes data 8 4 ≠ waveTag)) ∧
      (∀ data : Bytes, 44 ≤ data.length → sliceBytes data 0 4 = riffTag →
        sliceBytes data 8 4 = waveTag →
        (∀ i, i < data.length → sliceBytes data i 4 ≠ chunkTagData) →
        readWAVFile (some data) =
          .ok (data.drop 44, wavSampleRate data)) := by
  refine ⟨⟨"read failed", rfl⟩, ?_, ?_⟩
  · intro data
    constructor
    · rintro ⟨e, he⟩
      by_contra hno
      push_neg at hno
      obtain ⟨hlen, hr, hw⟩ := hno
      simp [readWAVFile, Nat.not_lt.mpr hlen, hr, hw] at he
    · intro hcond
      by_cases hlen : data.length < 44
      · exact ⟨"WAV file too short", by simp [readWAVFile, hlen]⟩
      · by_cases hr : sliceBytes data 0 4 = riffTag
        · by_cases hw : sliceBytes data 8 4 = waveTag
          · rcases hcond with h | h | h
            · exact absurd h hlen
            · exact absurd hr h
            · exact absurd hw h
          · exact ⟨"not a valid WAV file",
              by simp [readWAVFile, hlen, hr, hw]⟩
        · exact ⟨"not a valid WAV file", by simp [readWAVFile, hlen, hr]⟩
  · intro data hlen hr hw hno
    have hfind : findDataTag data = none := by
      rw [findDataTag, List.find?_eq_none]
      intro i hi
      simp only [List.mem_range] at hi
      simp [hno i hi]
    simp [readWAVFile, Nat.not_lt.mpr hlen, hr, hw, hfind]

/-! ## Witnesses -/

/-- Witness for C1, at a concrete successful first call through the
native path followed by a second call against the caches it left. -/
theorem c1_witness :
    ((transcribeWithTranslation "a" "turbo" 4 "" true false true [] [] 1
        (.ok sampleWav) wNat1).result = .ok wL) ∧
      ((transcribeWithTranslation "a" "turbo" 7 "" false true true wCache1
          [] 2 (.error "off") ⟨1, []⟩).result = .ok wL ∧
        (transcribeWithTranslation "a" "turbo" 7 "" false true true wCache1
          [] 2 (.error "off") ⟨1, []⟩).segEvents = wL ∧
        (transcribeWithTranslation "a" "turbo" 7 "" false true true wCache1
          [] 2 (.error "off") ⟨1, []⟩).nativeCalled = false) :=
  ⟨rfl, c1_cached_idempotence "a" "turbo" 4 7 true false false [] [] [] 1 2
    (.ok sampleWav) (.error "off") wNat1 ⟨1, []⟩ wL rfl⟩

/-- Witness for C2, at the reachable state in which invocation 0 has
taken the mutex and entered the native call. -/
theorem c2_witness :
    (∀ i : Fin 2, lockS2.phase i = CallPhase.inNative →
        lockS2.owner = some i) ∧
      ¬(lockS2.phase 0 = CallPhase.inNative ∧
        lockS2.phase 1 = CallPhase.inNative) :=
  c2_mutual_exclusion lockS2
    (LockReachable.step
      (LockReachable.step LockReachable.init
        (LockStep.acquire initLockState 0 rfl rfl))
      (LockStep.enterNative lockS1 0 rfl (by decide)))

/-- Witness for the amended C3, at a concrete store racing with an
insert for a different path. -/
theorem c3_witness :
    ("m" : String) ≠ "" ∧ mcLookup [] "m" = none ∧
      ((newWhisperCGOEngine "m" true (some 5) [] [("other", 3)]).result =
          .ok (5, false) ∧
        mcLookup (newWhisperCGOEngine "m" true (some 5) []
          [("other", 3)]).cache "m" = some 5) :=
  ⟨by decide, rfl,
    c3_insert_overwrites "m" 5 [] [("other", 3)] (by decide) rfl⟩

/-- Witness for the amended C4, at a concrete translated invocation that
reaches the native call with a progress sink supplied. -/
theorem c4_witness :
    (transcribeWithTranslation "b" "base" 2 "en" true false true [] [] 3
        (.ok sampleWav) ⟨0, []⟩).nativeCalled = true ∧
      ((transcribeWithTranslation "b" "base" 2 "en" true false true [] []
          3 (.ok sampleWav) ⟨0, []⟩).issuedToken = some 3 ∧
        (transcribeWithTranslation "b" "base" 2 "en" true false true [] []
          3 (.ok sampleWav) ⟨0, []⟩).counter = 3 + 1 ∧
        (transcribeWithTranslation "b" "base" 2 "en" true false true [] []
          3 (.ok sampleWav) ⟨0, []⟩).registeredSlot =
          some registeredSlotValue ∧
        registeredSlotValue.hasProgressPercent = true ∧
        registeredSlotValue.currentSpeaker = 0 ∧
        registeredSlotValue.hasSegmentCallback = false) :=
  ⟨by decide,
    c4_slot_registration "b" "base" "en" 2 false true [] [] 3
      (.ok sampleWav) ⟨0, []⟩ (by decide)⟩

/-- Witness for C5, at a concrete invocation whose native call fails:
the issued token is gone from the registry afterwards. -/
theorem c5_witness :
    (1 : Nat) ≠ 0 ∧
      (transcribeWithTranslation "a" "turbo" 4 "" true true true [] [] 1
        (.ok sampleWav) ⟨2, []⟩).issuedToken = some 1 ∧
      regLookup (transcribeWithTranslation "a" "turbo" 4 "" true true true
        [] [] 1 (.ok sampleWav) ⟨2, []⟩).registry 1 = none :=
  ⟨by decide, by decide,
    c5_registry_cleanup "a" "turbo" "" 4 true true true [] [] 1
      (.ok sampleWav) ⟨2, []⟩ 1 (by decide) (by decide)⟩

/-- Witness for C6, at a concrete successful native run over `wSegs`. -/
theorem c6_witness :
    (transcribeWithTranslation "a" "turbo" 4 "" true true true [] [] 1
        (.ok sampleWav) wNat1).nativeCalled = true ∧
      (transcribeWithTranslation "a" "turbo" 4 "" true true true [] [] 1
        (.ok sampleWav) wNat1).result = .ok wL ∧
      (wL.length = wNat1.segs.length ∧
        (∀ h0 : 0 < wL.length, (wL.get ⟨0, h0⟩).Speaker = 0) ∧
        (∀ i, ∀ h1 : i + 1 < wL.length, ∀ h2 : i < wNat1.segs.length,
          (wL.get ⟨i + 1, h1⟩).Speaker =
            (wL.get ⟨i, Nat.lt_of_succ_lt h1⟩).Speaker +
              (if (wNat1.segs.get ⟨i, h2⟩).turnNext then 1 else 0)) ∧
        (∀ i, ∀ h1 : i + 1 < wL.length,
          (wL.get ⟨i, Nat.lt_of_succ_lt h1⟩).Speaker ≤
            (wL.get ⟨i + 1, h1⟩).Speaker)) :=
  ⟨by decide, rfl,
    c6_speaker_monotonicity "a" "turbo" "" 4 true true true [] [] 1
      (.ok sampleWav) wNat1 wL (by decide) rfl⟩

/-- Witness for C7, at a concrete translated invocation run once against
a cache holding an entry for its own key and once against the empty
cache. -/
theorem c7_witness :
    ("en" : String) ≠ "" ∧
      ((transcribeWithTranslation "a" "turbo" 4 "en" true true true
          [(⟨"a", "turbo"⟩, wL)] [] 1 (.ok sampleWav) wNat1).cache =
          [(⟨"a", "turbo"⟩, wL)] ∧
        (transcribeWithTranslation "a" "turbo" 4 "en" true true true
            [(⟨"a", "turbo"⟩, wL)] [] 1 (.ok sampleWav) wNat1).result =
          (transcribeWithTranslation "a" "turbo" 4 "en" true true true []
            [] 1 (.ok sampleWav) wNat1).result ∧
        (transcribeWithTranslation "a" "turbo" 4 "en" true true true
            [(⟨"a", "turbo"⟩, wL)] [] 1 (.ok sampleWav) wNat1).segEvents =
          (transcribeWithTranslation "a" "turbo" 4 "en" true true true []
            [] 1 (.ok sampleWav) wNat1).segEvents) :=
  ⟨by decide,
    c7_translation_bypasses_cache "a" "turbo" "en" 4 true true true
      [(⟨"a", "turbo"⟩, wL)] [] [] 1 (.ok sampleWav) wNat1 (by decide)⟩

/-- Witness for C8, at a concrete invocation whose native call returns
status 7. -/
theorem c8_witness :
    (transcribeWithTranslation "a" "turbo" 4 "" true true true [] [] 1
        (.ok sampleWav) ⟨7, []⟩).nativeCalled = true ∧
      (7 : Int) ≠ 0 ∧
      ((transcribeWithTranslation "a" "turbo" 4 "" true true true [] [] 1
          (.ok sampleWav) ⟨7, []⟩).result =
          .error (.inferenceFailure 7) ∧
        (transcribeWithTranslation "a" "turbo" 4 "" true true true [] [] 1
          (.ok sampleWav) ⟨7, []⟩).cache = []) :=
  ⟨by decide, by decide,
    c8_inference_failure "a" "turbo" "" 4 true true true [] [] 1
      (.ok sampleWav) ⟨7, []⟩ (by decide) (by decide)⟩

/-- Witness for the amended C9, at a concrete in-range sample sequence
containing a repeated value. -/
theorem c9_witness :
    (∀ v ∈ ([5, 7, 7, 9] : List Int), 0 < v ∧ v ≤ 100) ∧
      List.Chain' (fun a b => a ≠ b) (pollEmissions [5, 7, 7, 9]) :=
  ⟨by decide, c9_dedup_in_range [5, 7, 7, 9] (by decide)⟩

/-- Witness for C10, evaluating the acceptance clause at the concrete
file `sampleWav`, which has no `data` chunk tag. -/
theorem c10_witness :
    44 ≤ sampleWav.length ∧ sliceBytes sampleWav 0 4 = riffTag ∧
      sliceBytes sampleWav 8 4 = waveTag ∧
      readWAVFile (some sampleWav) =
        .ok (sampleWav.drop 44, wavSampleRate sampleWav) :=
  ⟨by decide, by decide, by decide,
    c10_wav_acceptance.2.2 sampleWav (by decide) (by decide) (by decide)
      (by decide)⟩

end Ivrit
